import Mathlib

/-!
Verification of the Smart Scheduler assistant core against its documentation.

The development shallowly embeds the scheduling core of the repository:

* `src/agent/calendar_integration.py` — `AdvancedCalendarManager.find_optimal_slots`
  and `_calculate_slot_confidence` (slot finder and confidence scoring);
* `src/utils/date_parser.py` — `AdvancedDateParser.parse_complex_date`,
  `_parse_this_weekday`, `_parse_next_weekday` (date expression resolver);
* `src/agent/scheduler_agent.py` — `ConversationState`, `MeetingRequest`,
  `handle_confirmation`, `update_meeting_request`, `reset_conversation` and the
  error-retry logic of `start_conversation` (dialogue state machine / orchestrator).

Modelling conventions:

* Timestamps within the target day are integers (seconds since local midnight);
  `timedelta(minutes=duration)` becomes `duration * 60`.  The `.hour` field of a
  within-day timestamp is `t / 3600`.
* Calendar dates are integers (day numbers); the epoch (day 0) is a Monday, so
  the Python `date.weekday()` (Monday = 0) becomes `d % 7`.
* Python floats used by the confidence score are modelled as rationals; every
  constant involved is an exact decimal.
* Python strings are handled through their character lists; `str.lower()` maps
  `Char.toLower` over the characters, and the `in` substring test is `hasSub`.
-/

/-! ## Slot finder (`src/agent/calendar_integration.py`) -/

/-- `CalendarEvent` dataclass (calendar_integration.py, lines 10-20); times in
seconds since local midnight of the target day. -/
structure CalendarEvent where
  id : String
  title : String
  start_time : Int
  end_time : Int
  attendees : List String
deriving DecidableEq, Repr

/-- `TimeSlot` dataclass (calendar_integration.py, lines 22-32). -/
structure TimeSlot where
  start_time : Int
  end_time : Int
  confidence : ℚ
deriving DecidableEq, Repr

/-- Ordering used by `events.sort(key=lambda e: e.start_time)` (line 137). -/
def evLE (a b : CalendarEvent) : Prop := a.start_time ≤ b.start_time

instance : DecidableRel evLE := fun a b =>
  inferInstanceAs (Decidable (a.start_time ≤ b.start_time))

instance : IsTotal CalendarEvent evLE := ⟨fun a b => Int.le_total a.start_time b.start_time⟩

instance : IsTrans CalendarEvent evLE := ⟨fun _ _ _ hab hbc => le_trans hab hbc⟩

/-- Ordering used by `slots.sort(key=lambda s: s.confidence, reverse=True)`
(line 158): descending by confidence.  the Python sort is stable, and so is
`List.insertionSort` with this relation: on a tie the earlier element stays first. -/
def confGE (s t : TimeSlot) : Prop := t.confidence ≤ s.confidence

instance : DecidableRel confGE := fun s t =>
  inferInstanceAs (Decidable (t.confidence ≤ s.confidence))

instance : IsTotal TimeSlot confGE := ⟨fun s t => le_total t.confidence s.confidence⟩

instance : IsTrans TimeSlot confGE := ⟨fun _ _ _ hab hbc => le_trans hbc hab⟩

/-- One step of the neighbour-proximity loop of `_calculate_slot_confidence`
(lines 181-189): subtract 0.2 for an event ending less than 15 minutes before
the slot starts, and 0.2 for an event starting less than 15 minutes after the
slot ends. -/
def proximityPenalty (slot_start slot_end : Int) (c : ℚ) (e : CalendarEvent) : ℚ :=
  let time_before : ℚ := ((slot_start - e.end_time : Int) : ℚ) / 60
  let time_after : ℚ := ((e.start_time - slot_end : Int) : ℚ) / 60
  let c1 := if 0 < time_before ∧ time_before < 15 then c - 2/10 else c
  if 0 < time_after ∧ time_after < 15 then c1 - 2/10 else c1

/-- `_calculate_slot_confidence` (calendar_integration.py, lines 161-191).
`hour` is the `.hour` field of the slot start (`t / 3600` for a within-day
timestamp). -/
def calculate_slot_confidence (start_time duration_minutes : Int)
    (events : List CalendarEvent) : ℚ :=
  let hour := start_time / 3600
  let c0 : ℚ := 1
  let c1 :=
    if 10 ≤ hour ∧ hour ≤ 11 then c0 + 2/10
    else if 14 ≤ hour ∧ hour ≤ 15 then c0 + 1/10
    else if hour < 9 ∨ 17 < hour then c0 - 3/10
    else c0
  let c2 := if 12 ≤ hour ∧ hour ≤ 13 then c1 - 1/10 else c1
  let slot_end := start_time + duration_minutes * 60
  let c3 := events.foldl (proximityPenalty start_time slot_end) c2
  max (1/10) c3

/-- The event loop of `find_optimal_slots` (lines 139-148): walk the sorted
events with a cursor; before each event, emit a slot of exactly the requested
duration when it fits in the gap, then advance the cursor past the event.
Returns the emitted slots together with the final cursor position.
The two nested source conditions (gap `≥ duration` and `slot_end ≤ event
start`) are combined in one conjunction. -/
def walkSlots (allEvents : List CalendarEvent) (d : Int) :
    List CalendarEvent → Int → List TimeSlot × Int
  | [], cur => ([], cur)
  | e :: rest, cur =>
    if e.start_time - cur ≥ d * 60 ∧ cur + d * 60 ≤ e.start_time then
      ((TimeSlot.mk cur (cur + d * 60) (calculate_slot_confidence cur d allEvents)) ::
          (walkSlots allEvents d rest (max cur e.end_time)).1,
        (walkSlots allEvents d rest (max cur e.end_time)).2)
    else walkSlots allEvents d rest (max cur e.end_time)

/-- The trailing-gap check of `find_optimal_slots` (lines 150-155): one more
slot between the final cursor and the end of the working window. -/
def trailingSlot (sorted : List CalendarEvent) (d we cur : Int) : List TimeSlot :=
  if we - cur ≥ d * 60 ∧ cur + d * 60 ≤ we then
    [TimeSlot.mk cur (cur + d * 60) (calculate_slot_confidence cur d sorted)]
  else []

/-- All candidate slots produced by `find_optimal_slots` before the final
confidence sort: loop slots followed by the trailing slot. -/
def slotCandidates (events : List CalendarEvent) (d ws we : Int) : List TimeSlot :=
  let sorted := List.insertionSort evLE events
  let walked := walkSlots sorted d sorted ws
  walked.1 ++ trailingSlot sorted d we walked.2

/-- `find_optimal_slots` (calendar_integration.py, lines 83-159), for a working
window `[ws, we]` in seconds since midnight (the window the source derives from
the default 09:00-17:00 hours or the parsed `preferred_time_range`).  Candidates
are sorted descending by confidence (a stable sort in Python) and truncated to
`max_slots`. -/
def find_optimal_slots (events : List CalendarEvent) (duration_minutes ws we : Int)
    (max_slots : Nat) : List TimeSlot :=
  (List.insertionSort confGE (slotCandidates events duration_minutes ws we)).take max_slots

/-- Two half-open busy intervals overlap. -/
def eventsOverlap (e f : CalendarEvent) : Prop :=
  e.start_time < f.end_time ∧ f.start_time < e.end_time

instance : DecidableRel eventsOverlap := fun a b =>
  inferInstanceAs (Decidable (a.start_time < b.end_time ∧ b.start_time < a.end_time))

/-- A slot overlaps a busy interval. -/
def slotEventOverlap (s : TimeSlot) (e : CalendarEvent) : Prop :=
  s.start_time < e.end_time ∧ e.start_time < s.end_time

instance : ∀ (s : TimeSlot) (e : CalendarEvent), Decidable (slotEventOverlap s e) := fun a b =>
  inferInstanceAs (Decidable (a.start_time < b.end_time ∧ b.start_time < a.end_time))

/-- Two slots overlap. -/
def slotsOverlap (s t : TimeSlot) : Prop :=
  s.start_time < t.end_time ∧ t.start_time < s.end_time

instance : DecidableRel slotsOverlap := fun a b =>
  inferInstanceAs (Decidable (a.start_time < b.end_time ∧ b.start_time < a.end_time))

/-- Descending-confidence order with ties broken by encounter order, which for
the candidates of the slot finder is ascending start time (earlier-in-day first). -/
def confTieOrder (s t : TimeSlot) : Prop :=
  t.confidence < s.confidence ∨ (s.confidence = t.confidence ∧ s.start_time < t.start_time)

/-- The candidate slots come out of the walk in a chain: each slot ends before
the next one starts. -/
def slotChain (s t : TimeSlot) : Prop := s.end_time ≤ t.start_time

/-! ## Date expression resolver (`src/utils/date_parser.py`)

Dates are integer day numbers with day 0 a Monday, so `date.weekday()`
(Monday = 0 .. Sunday = 6) is `d % 7`; `self.today` is the `today` argument. -/

/-- The Python `date.weekday()` in the day-number model. -/
def weekdayOf (d : Int) : Int := d % 7

/-- `AdvancedDateParser._parse_next_weekday` (date_parser.py, lines 62-69):
`days_ahead = target_weekday - current_weekday + 7`. -/
def parse_next_weekday (today target_weekday : Int) : Int :=
  let current_weekday := weekdayOf today
  let days_ahead := target_weekday - current_weekday + 7
  today + days_ahead

/-- `AdvancedDateParser._parse_this_weekday` (date_parser.py, lines 50-60):
`days_ahead = target_weekday - current_weekday`, rolled forward a week when
`days_ahead <= 0`. -/
def parse_this_weekday (today target_weekday : Int) : Int :=
  let current_weekday := weekdayOf today
  let days_ahead := target_weekday - current_weekday
  let days_ahead := if days_ahead ≤ 0 then days_ahead + 7 else days_ahead
  today + days_ahead

/-- Substring test on character lists: the Python `needle in hay`. -/
def hasSub (needle : List Char) : List Char → Bool
  | [] => needle.isEmpty
  | c :: rest => needle.isPrefixOf (c :: rest) || hasSub needle rest

/-- The Python `str.lower()`, as a character list (ASCII-faithful). -/
def lowerStr (s : String) : List Char := s.data.map Char.toLower

/-- The `"next week"` clause of `AdvancedDateParser.parse_complex_date`
(date_parser.py, lines 10-21): `text = text.lower().strip()`; if it contains
`"next week"`, start from 7 days ahead, add 3 if it contains `"late"`, else
add 1 if it contains `"early"`.  The trailing-whitespace `strip` cannot change
any of the three substring tests, so it is dropped.  Texts without
`"next week"` fall through to the later patterns of the source function, which
this clause-level model leaves out (`none`). -/
def parse_complex_date_next_week (text : String) (today : Int) : Option Int :=
  let t := lowerStr text
  if hasSub ("next week".data) t then
    let days_ahead : Int := 7
    let days_ahead :=
      if hasSub ("late".data) t then days_ahead + 3
      else if hasSub ("early".data) t then days_ahead + 1
      else days_ahead
    some (today + days_ahead)
  else none

/-! ## Dialogue state machine (`src/agent/scheduler_agent.py`) -/

/-- `ConversationState` enum (scheduler_agent.py, lines 13-21). -/
inductive ConversationState
  | greeting
  | collecting_duration
  | collecting_time_preference
  | showing_options
  | confirming_selection
  | scheduling
  | handling_conflict
  | complete
deriving DecidableEq, Repr

/-- Result of one call of `handle_confirmation` on an agent sitting in
`CONFIRMING_SELECTION`: either a reply together with the state the agent is
left in, or an exception escaping the method with the state it had already
mutated to. -/
inductive ConfirmOutcome
  | raisedAttributeError (state_after : ConversationState)
  | replied (state_after : ConversationState) (reply : String)
deriving DecidableEq, Repr

/-- `handle_confirmation` (scheduler_agent.py, lines 299-317), entered in state
`CONFIRMING_SELECTION`.  On a `"yes"` substring the source first sets
`self.state = ConversationState.SCHEDULING` and then evaluates
`self.calendar.schedule_meeting(...)`; but `SmartSchedulerAgent.__init__` only
ever assigns `self.calendar_manager` — no code in the repository assigns
`self.calendar` — so that attribute access raises `AttributeError` out of the
method, with the state left at `SCHEDULING`.  On a `"no"` substring the state
becomes `SHOWING_OPTIONS`; otherwise the state is unchanged and the user is
re-prompted for yes/no.  (Apostrophes in the source reply strings are expanded
to full words.) -/
def handle_confirmation (user_input : String) : ConfirmOutcome :=
  if hasSub ("yes".data) (lowerStr user_input) then
    ConfirmOutcome.raisedAttributeError ConversationState.scheduling
  else if hasSub ("no".data) (lowerStr user_input) then
    ConfirmOutcome.replied ConversationState.showing_options
      "No problem. Please select another available time slot."
  else
    ConfirmOutcome.replied ConversationState.confirming_selection
      "Please confirm if you would like to schedule this meeting now. You can say yes or no."

/-- `MeetingRequest` dataclass (scheduler_agent.py, lines 23-35); the
`preferred_date` is a day number, a `time_range` is a pair of fractional
hours. -/
structure MeetingRequest where
  duration_minutes : Option Int
  preferred_date : Option Int
  time_range : Option (ℚ × ℚ)
  title : Option String
  attendees : List String
  urgency : String
  flexibility : String
deriving DecidableEq, Repr

/-- A fresh `MeetingRequest()` with the dataclass defaults. -/
def emptyMeetingRequest : MeetingRequest :=
  { duration_minutes := none
    preferred_date := none
    time_range := none
    title := some "Scheduled Meeting"
    attendees := []
    urgency := "medium"
    flexibility := "flexible" }

/-- The JSON object returned by the NLP extractor (`extract_meeting_info`
contract, used by `update_meeting_request`); each field may be absent/null. -/
structure ExtractedInfo where
  duration_minutes : Option Int
  preferred_date : Option String
  time_range : Option (ℚ × ℚ)
  urgency : Option String
  flexibility : Option String
deriving DecidableEq, Repr

/-- The Python `new or old` merge for an integer field: a present value wins unless it
is falsy (`0`). -/
def pyOrInt (newv old : Option Int) : Option Int :=
  match newv with
  | some d => if d = 0 then old else some d
  | none => old

/-- The Python `new or old` merge for a pair-valued field (a present pair is truthy). -/
def pyOrPair (newv old : Option (ℚ × ℚ)) : Option (ℚ × ℚ) :=
  match newv with
  | some tr => some tr
  | none => old

/-- The Python `new or old` merge for a plain string field: a present value wins unless
it is falsy (the empty string). -/
def pyOrStr (newv : Option String) (old : String) : String :=
  match newv with
  | some s => if s = "" then old else s
  | none => old

/-- The `preferred_date` update of `update_meeting_request` (scheduler_agent.py,
lines 360-363): `strptime(extracted["preferred_date"], "%Y-%m-%d").date()` when
the extracted string is truthy, else the old value.  `parseDate` stands for
`strptime`; a parse failure raises `ValueError` out of the method. -/
def parsePreferredDate (parseDate : String → Option Int) (newv : Option String)
    (old : Option Int) : Except String (Option Int) :=
  match newv with
  | some s =>
    if s = "" then Except.ok old
    else
      match parseDate s with
      | some d => Except.ok (some d)
      | none => Except.error "ValueError: strptime"
  | none => Except.ok old

/-- `update_meeting_request` (scheduler_agent.py, lines 354-366).  A falsy
`extracted_info` returns the request unchanged; otherwise each field is merged
with `new or old`; `title` and `attendees` are never touched. -/
def update_meeting_request (parseDate : String → Option Int) (req : MeetingRequest) :
    Option ExtractedInfo → Except String MeetingRequest
  | none => Except.ok req
  | some info =>
    match parsePreferredDate parseDate info.preferred_date req.preferred_date with
    | Except.error e => Except.error e
    | Except.ok newDate =>
      Except.ok { req with
        duration_minutes := pyOrInt info.duration_minutes req.duration_minutes
        preferred_date := newDate
        time_range := pyOrPair info.time_range req.time_range
        flexibility := pyOrStr info.flexibility req.flexibility
        urgency := pyOrStr info.urgency req.urgency }

/-! ## Turn orchestrator error handling (`start_conversation`, lines 118-128) -/

/-- `self.max_retries = 3` (scheduler_agent.py, line 55). -/
def max_retries : Nat := 3

/-- The agent state touched by the retry/reset logic: conversation state,
pending request, consecutive-error counter. -/
structure AgentCore where
  state : ConversationState
  meeting_request : MeetingRequest
  current_retries : Nat
deriving DecidableEq, Repr

/-- `reset_conversation` (scheduler_agent.py, lines 344-352), restricted to the
modelled fields: back to `GREETING` with a fresh `MeetingRequest()` and a
cleared error counter. -/
def reset_conversation (a : AgentCore) : AgentCore :=
  { a with
    state := ConversationState.greeting
    meeting_request := emptyMeetingRequest
    current_retries := 0 }

/-- One unrecoverable-error turn of the `start_conversation` loop
(scheduler_agent.py, lines 121-128): increment `current_retries`; when it
reaches `max_retries`, call `reset_conversation`. -/
def errorTurn (a : AgentCore) : AgentCore :=
  let a1 : AgentCore := { a with current_retries := a.current_retries + 1 }
  if a1.current_retries ≥ max_retries then reset_conversation a1 else a1

/-- A successful turn resets the consecutive-error counter
(scheduler_agent.py, line 116). -/
def successTurn (a : AgentCore) : AgentCore :=
  { a with current_retries := 0 }

/-! ## Concrete inputs used by witnesses and counterexamples -/

/-- A busy interval 10:00-10:30 (seconds since midnight). -/
def busyTenToTenThirty : CalendarEvent :=
  { id := "1", title := "Busy", start_time := 36000, end_time := 37800, attendees := [] }

/-- A stub for `strptime` used by witnesses: every string parses to day 20000. -/
def parseDateStub : String → Option Int := fun _ => some 20000

/-- A sample extraction payload used by witnesses. -/
def sampleInfo : ExtractedInfo :=
  { duration_minutes := some 45
    preferred_date := some "2024-10-10"
    time_range := none
    urgency := none
    flexibility := some "rigid" }

/-- A sample mid-conversation request used by witnesses. -/
def sampleRequest : MeetingRequest :=
  { emptyMeetingRequest with duration_minutes := some 30, preferred_date := some 19000 }

/-- The request produced by merging `sampleInfo` into `sampleRequest`. -/
def sampleUpdatedRequest : MeetingRequest :=
  { duration_minutes := some 45
    preferred_date := some 20000
    time_range := none
    title := some "Scheduled Meeting"
    attendees := []
    urgency := "medium"
    flexibility := "rigid" }

/-! ## General lemmas about the slot finder -/

/-- The confidence score is floored at 0.1 (`max(0.1, confidence)`). -/
theorem calculate_slot_confidence_ge (st d : Int) (evs : List CalendarEvent) :
    (1:ℚ)/10 ≤ calculate_slot_confidence st d evs := by
  simp only [calculate_slot_confidence]
  exact le_max_left _ _

/-- The cursor never moves backwards over a walk. -/
theorem walkSlots_final_ge (all : List CalendarEvent) (d : Int) (l : List CalendarEvent) :
    ∀ cur, cur ≤ (walkSlots all d l cur).2 := by
  induction l with
  | nil => intro cur; simp [walkSlots]
  | cons e rest ih =>
    intro cur
    simp only [walkSlots]
    split
    · exact le_trans (le_max_left _ _) (ih _)
    · exact le_trans (le_max_left _ _) (ih _)

/-- The final cursor is past the end of every walked event. -/
theorem walkSlots_final_ge_event (all : List CalendarEvent) (d : Int) (l : List CalendarEvent) :
    ∀ cur, ∀ e ∈ l, e.end_time ≤ (walkSlots all d l cur).2 := by
  induction l with
  | nil => intro cur e he; cases he
  | cons f rest ih =>
    intro cur e he
    simp only [walkSlots]
    rcases List.mem_cons.mp he with rfl | he'
    · split
      · exact le_trans (le_max_right _ _) (walkSlots_final_ge all d rest _)
      · exact le_trans (le_max_right _ _) (walkSlots_final_ge all d rest _)
    · split
      · exact ih _ e he'
      · exact ih _ e he'

/-- Every slot emitted by the walk starts at or after the initial cursor, spans
exactly `d` minutes, and carries the score of its start time. -/
theorem walkSlots_slot_spec (all : List CalendarEvent) (d : Int) (l : List CalendarEvent) :
    ∀ cur, ∀ s ∈ (walkSlots all d l cur).1,
      cur ≤ s.start_time ∧ s.end_time = s.start_time + d * 60 ∧
      s.confidence = calculate_slot_confidence s.start_time d all := by
  induction l with
  | nil => intro cur s hs; simp [walkSlots] at hs
  | cons e rest ih =>
    intro cur s hs
    simp only [walkSlots] at hs
    split at hs
    · rcases List.mem_cons.mp hs with rfl | hs'
      · exact ⟨le_refl _, rfl, rfl⟩
      · have h := ih _ s hs'
        exact ⟨le_trans (le_max_left _ _) h.1, h.2⟩
    · have h := ih _ s hs
      exact ⟨le_trans (le_max_left _ _) h.1, h.2⟩

/-- Over well-formed events the emitted slots form a chain (each ends before
the next starts) and all end at or before the final cursor. -/
theorem walkSlots_chain (all : List CalendarEvent) (d : Int) (l : List CalendarEvent) :
    ∀ cur, (∀ e ∈ l, e.start_time ≤ e.end_time) →
      ((walkSlots all d l cur).1).Pairwise slotChain ∧
      ∀ s ∈ (walkSlots all d l cur).1, s.end_time ≤ (walkSlots all d l cur).2 := by
  induction l with
  | nil => intro cur _; simp [walkSlots]
  | cons e rest ih =>
    intro cur hwf
    have hwfe : e.start_time ≤ e.end_time := hwf e (List.mem_cons_self _ _)
    have hwf' : ∀ f ∈ rest, f.start_time ≤ f.end_time :=
      fun f hf => hwf f (List.mem_cons_of_mem _ hf)
    have ihr := ih (max cur e.end_time) hwf'
    simp only [walkSlots]
    split
    case isTrue hc =>
      constructor
      · refine List.pairwise_cons.mpr ⟨?_, ihr.1⟩
        intro t ht
        have hts := (walkSlots_slot_spec all d rest _ t ht).1
        have hpast : cur + d * 60 ≤ max cur e.end_time :=
          le_trans (le_trans hc.2 hwfe) (le_max_right _ _)
        exact le_trans hpast hts
      · intro s hs
        rcases List.mem_cons.mp hs with rfl | hs'
        · have hpast : cur + d * 60 ≤ max cur e.end_time :=
            le_trans (le_trans hc.2 hwfe) (le_max_right _ _)
          exact le_trans hpast (walkSlots_final_ge all d rest _)
        · exact ihr.2 s hs'
    case isFalse =>
      exact ihr

/-- When the walked events are sorted by start time, every emitted slot is
disjoint from every walked event. -/
theorem walkSlots_disjoint (all : List CalendarEvent) (d : Int) (l : List CalendarEvent) :
    ∀ cur, l.Pairwise evLE →
      ∀ s ∈ (walkSlots all d l cur).1, ∀ e ∈ l, ¬ slotEventOverlap s e := by
  induction l with
  | nil => intro cur _ s hs; simp [walkSlots] at hs
  | cons f rest ih =>
    intro cur hp s hs e he
    have hp' : rest.Pairwise evLE := (List.pairwise_cons.mp hp).2
    have hf : ∀ g ∈ rest, evLE f g := (List.pairwise_cons.mp hp).1
    simp only [walkSlots] at hs
    split at hs
    case isTrue hc =>
      rcases List.mem_cons.mp hs with rfl | hs'
      · rcases List.mem_cons.mp he with rfl | he'
        · exact fun hov => absurd hov.2 (not_lt.mpr hc.2)
        · exact fun hov => absurd hov.2 (not_lt.mpr (le_trans hc.2 (hf e he')))
      · rcases List.mem_cons.mp he with rfl | he'
        · have hstart := (walkSlots_slot_spec all d rest _ s hs').1
          exact fun hov => absurd hov.1 (not_lt.mpr (le_trans (le_max_right _ _) hstart))
        · exact ih _ hp' s hs' e he'
    case isFalse =>
      rcases List.mem_cons.mp he with rfl | he'
      · have hstart := (walkSlots_slot_spec all d rest _ s hs).1
        exact fun hov => absurd hov.1 (not_lt.mpr (le_trans (le_max_right _ _) hstart))
      · exact ih _ hp' s hs e he'

/-- Every candidate slot has exact duration, confidence at least 0.1, and is
disjoint from every existing event. -/
theorem slotCandidates_spec (events : List CalendarEvent) (d ws we : Int) :
    ∀ s ∈ slotCandidates events d ws we,
      s.end_time = s.start_time + d * 60 ∧
      (1:ℚ)/10 ≤ s.confidence ∧
      ∀ e ∈ events, ¬ slotEventOverlap s e := by
  intro s hs
  simp only [slotCandidates] at hs
  have hsorted : (List.insertionSort evLE events).Pairwise evLE :=
    List.sorted_insertionSort evLE events
  rcases List.mem_append.mp hs with hw | ht
  · have h := walkSlots_slot_spec (List.insertionSort evLE events) d
      (List.insertionSort evLE events) ws s hw
    refine ⟨h.2.1, ?_, ?_⟩
    · rw [h.2.2]; exact calculate_slot_confidence_ge _ _ _
    · intro e he
      exact walkSlots_disjoint (List.insertionSort evLE events) d
        (List.insertionSort evLE events) ws hsorted s hw e
        ((List.mem_insertionSort evLE).mpr he)
  · simp only [trailingSlot] at ht
    split at ht
    case isTrue hc =>
      rcases List.mem_singleton.mp ht with rfl
      refine ⟨rfl, calculate_slot_confidence_ge _ _ _, ?_⟩
      intro e he
      have hend : e.end_time ≤
          (walkSlots (List.insertionSort evLE events) d (List.insertionSort evLE events) ws).2 :=
        walkSlots_final_ge_event (List.insertionSort evLE events) d
          (List.insertionSort evLE events) ws e ((List.mem_insertionSort evLE).mpr he)
      exact fun hov => absurd hov.1 (not_lt.mpr hend)
    case isFalse => cases ht

/-- Over well-formed events the full candidate list is a chain. -/
theorem slotCandidates_chain (events : List CalendarEvent) (d ws we : Int)
    (hwf : ∀ e ∈ events, e.start_time ≤ e.end_time) :
    (slotCandidates events d ws we).Pairwise slotChain := by
  have hwfs : ∀ e ∈ List.insertionSort evLE events, e.start_time ≤ e.end_time :=
    fun e he => hwf e ((List.mem_insertionSort evLE).mp he)
  have hchain := walkSlots_chain (List.insertionSort evLE events) d
    (List.insertionSort evLE events) ws hwfs
  simp only [slotCandidates]
  rw [List.pairwise_append]
  refine ⟨hchain.1, ?_, ?_⟩
  · simp only [trailingSlot]
    split
    · exact List.pairwise_singleton _ _
    · exact List.Pairwise.nil
  · intro a ha b hb
    simp only [trailingSlot] at hb
    split at hb
    case isTrue hc =>
      rcases List.mem_singleton.mp hb with rfl
      exact hchain.2 a ha
    case isFalse => cases hb

/-- Stability of the descending insertion sort: inserting an element that
precedes (in start time) everything already in a `confTieOrder`-sorted list
keeps the list `confTieOrder`-sorted. -/
theorem orderedInsert_confTieOrder (a : TimeSlot) (l : List TimeSlot)
    (hl : l.Pairwise confTieOrder) (ha : ∀ b ∈ l, a.start_time < b.start_time) :
    (List.orderedInsert confGE a l).Pairwise confTieOrder := by
  induction l with
  | nil => exact List.pairwise_singleton _ _
  | cons b t ih =>
    rcases List.pairwise_cons.mp hl with ⟨hb, ht⟩
    by_cases hab : confGE a b
    · rw [List.orderedInsert, if_pos hab]
      refine List.pairwise_cons.mpr ⟨?_, hl⟩
      intro x hx
      have hab' : b.confidence ≤ a.confidence := hab
      rcases List.mem_cons.mp hx with rfl | hx'
      · rcases lt_or_eq_of_le hab' with hlt | heq
        · exact Or.inl hlt
        · exact Or.inr ⟨heq.symm, ha x (List.mem_cons_self _ _)⟩
      · have hxb : x.confidence ≤ b.confidence := by
          rcases hb x hx' with h1 | h2
          · exact le_of_lt h1
          · exact le_of_eq h2.1.symm
        rcases lt_or_eq_of_le (le_trans hxb hab') with hlt | heq
        · exact Or.inl hlt
        · exact Or.inr ⟨heq.symm, ha x (List.mem_cons_of_mem _ hx')⟩
    · rw [List.orderedInsert, if_neg hab]
      refine List.pairwise_cons.mpr
        ⟨?_, ih ht (fun c hc => ha c (List.mem_cons_of_mem _ hc))⟩
      intro x hx
      rcases (List.mem_orderedInsert confGE).mp hx with rfl | hx'
      · exact Or.inl (not_le.mp hab)
      · exact hb x hx'

/-- Sorting a list with strictly increasing start times descending by
confidence yields `confTieOrder`: non-increasing confidence, ties in
encounter (start-time) order — exactly the behaviour of the stable Python
sort. -/
theorem insertionSort_confTieOrder (l : List TimeSlot)
    (hq : l.Pairwise fun s t => s.start_time < t.start_time) :
    (List.insertionSort confGE l).Pairwise confTieOrder := by
  induction l with
  | nil => exact List.Pairwise.nil
  | cons a l ih =>
    rcases List.pairwise_cons.mp hq with ⟨ha, hl⟩
    simp only [List.insertionSort]
    exact orderedInsert_confTieOrder a _ (ih hl)
      (fun b hb => ha b ((List.mem_insertionSort confGE).mp hb))

/-- For a positive duration and well-formed events, candidate start times are
strictly increasing (earlier-in-day candidates are encountered first). -/
theorem slotCandidates_start_strict (events : List CalendarEvent) (d ws we : Int)
    (hd : 1 ≤ d) (hwf : ∀ e ∈ events, e.start_time ≤ e.end_time) :
    (slotCandidates events d ws we).Pairwise fun s t => s.start_time < t.start_time := by
  have hchain := slotCandidates_chain events d ws we hwf
  have hspec := slotCandidates_spec events d ws we
  refine hchain.imp_of_mem ?_
  intro s t hs _ h
  have hse := (hspec s hs).1
  have hch : s.end_time ≤ t.start_time := h
  omega

/-! ## Claim theorems -/

/-- C1: for pairwise non-overlapping busy intervals and any requested duration,
every slot emitted by `find_optimal_slots` is disjoint from every busy
interval and spans exactly the requested duration (`d` minutes = `d * 60`
seconds), and no two emitted slots overlap each other. -/
theorem slotfinder_slots_disjoint_and_exact (events : List CalendarEvent)
    (d ws we : Int) (n : Nat)
    (hwf : ∀ e ∈ events, e.start_time ≤ e.end_time)
    (hdisj : events.Pairwise fun e f => ¬ eventsOverlap e f) :
    (∀ s ∈ find_optimal_slots events d ws we n,
        s.end_time - s.start_time = d * 60 ∧ ∀ e ∈ events, ¬ slotEventOverlap s e) ∧
    (find_optimal_slots events d ws we n).Pairwise (fun s t => ¬ slotsOverlap s t) := by
  have hmem : ∀ s ∈ find_optimal_slots events d ws we n, s ∈ slotCandidates events d ws we := by
    intro s hs
    have h1 := List.take_subset n (List.insertionSort confGE (slotCandidates events d ws we)) hs
    exact (List.mem_insertionSort confGE).mp h1
  constructor
  · intro s hs
    have hc := slotCandidates_spec events d ws we s (hmem s hs)
    refine ⟨by omega, hc.2.2⟩
  · have hchain := slotCandidates_chain events d ws we hwf
    have hnov : (slotCandidates events d ws we).Pairwise
        (fun s t => ¬ slotsOverlap s t ∧ ¬ slotsOverlap t s) := by
      refine hchain.imp ?_
      intro s t h
      exact ⟨fun hov => absurd hov.2 (not_lt.mpr h), fun hov => absurd hov.1 (not_lt.mpr h)⟩
    have hsym : ∀ {x y : TimeSlot},
        (¬ slotsOverlap x y ∧ ¬ slotsOverlap y x) → (¬ slotsOverlap y x ∧ ¬ slotsOverlap x y) :=
      fun h => ⟨h.2, h.1⟩
    have hperm := (List.perm_insertionSort confGE (slotCandidates events d ws we)).symm
    have hsorted := (List.Perm.pairwise_iff hsym hperm).mp hnov
    have htake := List.Pairwise.sublist
      (List.take_sublist n (List.insertionSort confGE (slotCandidates events d ws we))) hsorted
    exact htake.imp (fun h => h.1)

/-- Witness for C1 at the concrete 09:00-17:00 day with one busy interval. -/
theorem slotfinder_slots_disjoint_and_exact_witness :
    (∀ e ∈ [busyTenToTenThirty], e.start_time ≤ e.end_time) ∧
    ([busyTenToTenThirty].Pairwise fun e f => ¬ eventsOverlap e f) ∧
    ((∀ s ∈ find_optimal_slots [busyTenToTenThirty] 30 32400 61200 5,
        s.end_time - s.start_time = 30 * 60 ∧
        ∀ e ∈ [busyTenToTenThirty], ¬ slotEventOverlap s e) ∧
     (find_optimal_slots [busyTenToTenThirty] 30 32400 61200 5).Pairwise
        (fun s t => ¬ slotsOverlap s t)) :=
  ⟨by decide, by decide,
    slotfinder_slots_disjoint_and_exact [busyTenToTenThirty] 30 32400 61200 5
      (by decide) (by decide)⟩

/-- C2: every returned slot has confidence at least 0.1; the returned list has
at most `max_slots` elements and is sorted non-increasingly by confidence
(`confGE`); moreover, for a positive duration and well-formed events, ties
keep encounter order — earlier-in-day slots first (`confTieOrder`). -/
theorem slotfinder_confidence_sorted_bounded (events : List CalendarEvent)
    (d ws we : Int) (n : Nat) :
    (∀ s ∈ find_optimal_slots events d ws we n, (1:ℚ)/10 ≤ s.confidence) ∧
    (find_optimal_slots events d ws we n).length ≤ n ∧
    (find_optimal_slots events d ws we n).Pairwise confGE ∧
    (1 ≤ d → (∀ e ∈ events, e.start_time ≤ e.end_time) →
      (find_optimal_slots events d ws we n).Pairwise confTieOrder) := by
  refine ⟨?_, ?_, ?_, ?_⟩
  · intro s hs
    have h1 := List.take_subset n (List.insertionSort confGE (slotCandidates events d ws we)) hs
    have h2 := (List.mem_insertionSort confGE).mp h1
    exact (slotCandidates_spec events d ws we s h2).2.1
  · rw [find_optimal_slots, List.length_take]
    exact min_le_left _ _
  · exact List.Pairwise.sublist
      (List.take_sublist n (List.insertionSort confGE (slotCandidates events d ws we)))
      (List.sorted_insertionSort confGE (slotCandidates events d ws we))
  · intro hd hwf
    exact List.Pairwise.sublist
      (List.take_sublist n (List.insertionSort confGE (slotCandidates events d ws we)))
      (insertionSort_confTieOrder _ (slotCandidates_start_strict events d ws we hd hwf))

/-- Witness for C2 at the concrete 09:00-17:00 day with one busy interval. -/
theorem slotfinder_confidence_sorted_bounded_witness :
    (1 ≤ (30:Int)) ∧
    (∀ e ∈ [busyTenToTenThirty], e.start_time ≤ e.end_time) ∧
    (∀ s ∈ find_optimal_slots [busyTenToTenThirty] 30 32400 61200 5, (1:ℚ)/10 ≤ s.confidence) ∧
    (find_optimal_slots [busyTenToTenThirty] 30 32400 61200 5).length ≤ 5 ∧
    (find_optimal_slots [busyTenToTenThirty] 30 32400 61200 5).Pairwise confGE ∧
    (find_optimal_slots [busyTenToTenThirty] 30 32400 61200 5).Pairwise confTieOrder :=
  ⟨by decide, by decide,
    (slotfinder_confidence_sorted_bounded [busyTenToTenThirty] 30 32400 61200 5).1,
    (slotfinder_confidence_sorted_bounded [busyTenToTenThirty] 30 32400 61200 5).2.1,
    (slotfinder_confidence_sorted_bounded [busyTenToTenThirty] 30 32400 61200 5).2.2.1,
    (slotfinder_confidence_sorted_bounded [busyTenToTenThirty] 30 32400 61200 5).2.2.2
      (by decide) (by decide)⟩

/-- C3: in `CONFIRMING_SELECTION`, an utterance containing `yes` moves the
state to `SCHEDULING` and then raises `AttributeError` (the agent has no
`calendar` attribute), so no booking happens and the state is left at
`SCHEDULING`, not `CONFIRMING_SELECTION`: the claimed success and failure
transitions are unreachable. -/
theorem confirmation_yes_raises_in_scheduling :
    handle_confirmation "yes" =
      ConfirmOutcome.raisedAttributeError ConversationState.scheduling := by
  decide

/-- C4 counterexample: already three consecutive error turns (fewer than the
five the claim requires) reset the agent to `GREETING` with an empty
`MeetingRequest`, because `max_retries = 3`. -/
theorem three_errors_reset_counterexample :
    (errorTurn (errorTurn (errorTurn
        (AgentCore.mk ConversationState.showing_options sampleRequest 0)))).state
      = ConversationState.greeting ∧
    (errorTurn (errorTurn (errorTurn
        (AgentCore.mk ConversationState.showing_options sampleRequest 0)))).meeting_request
      = emptyMeetingRequest ∧
    sampleRequest ≠ emptyMeetingRequest := by decide

/-- C4 amended: three (not five) consecutive unrecoverable turn errors force
the reset to `GREETING` with an empty `MeetingRequest`; one or two consecutive
errors leave state and request untouched. -/
theorem reset_after_three_consecutive_errors (a : AgentCore)
    (h : a.current_retries = 0) :
    (errorTurn a).state = a.state ∧
    (errorTurn a).meeting_request = a.meeting_request ∧
    (errorTurn (errorTurn a)).state = a.state ∧
    (errorTurn (errorTurn a)).meeting_request = a.meeting_request ∧
    (errorTurn (errorTurn (errorTurn a))).state = ConversationState.greeting ∧
    (errorTurn (errorTurn (errorTurn a))).meeting_request = emptyMeetingRequest := by
  simp [errorTurn, reset_conversation, max_retries, h]

/-- Witness for the amended C4 at a concrete mid-conversation agent state. -/
theorem reset_after_three_consecutive_errors_witness :
    (AgentCore.mk ConversationState.showing_options sampleRequest 0).current_retries = 0 ∧
    ((errorTurn (AgentCore.mk ConversationState.showing_options sampleRequest 0)).state
        = (AgentCore.mk ConversationState.showing_options sampleRequest 0).state ∧
     (errorTurn (AgentCore.mk ConversationState.showing_options sampleRequest 0)).meeting_request
        = (AgentCore.mk ConversationState.showing_options sampleRequest 0).meeting_request ∧
     (errorTurn (errorTurn (AgentCore.mk ConversationState.showing_options sampleRequest 0))).state
        = (AgentCore.mk ConversationState.showing_options sampleRequest 0).state ∧
     (errorTurn (errorTurn (AgentCore.mk ConversationState.showing_options
        sampleRequest 0))).meeting_request
        = (AgentCore.mk ConversationState.showing_options sampleRequest 0).meeting_request ∧
     (errorTurn (errorTurn (errorTurn (AgentCore.mk ConversationState.showing_options
        sampleRequest 0)))).state = ConversationState.greeting ∧
     (errorTurn (errorTurn (errorTurn (AgentCore.mk ConversationState.showing_options
        sampleRequest 0)))).meeting_request = emptyMeetingRequest) :=
  ⟨rfl, reset_after_three_consecutive_errors _ rfl⟩

/-- C5 counterexample: with the single busy interval 10:00-10:30, a 30-minute
request on the 09:00-17:00 day emits the slot 09:00-09:30 with confidence 1,
which equals — is not 0.2 below — the confidence of the identical slot with no
events: the gap to the event is 30 minutes, beyond the 15-minute proximity
threshold, so no penalty applies. -/
theorem early_slot_not_penalized_counterexample :
    TimeSlot.mk 32400 34200 1 ∈ find_optimal_slots [busyTenToTenThirty] 30 32400 61200 5 ∧
    calculate_slot_confidence 32400 30 [] = 1 ∧
    calculate_slot_confidence 32400 30 [busyTenToTenThirty] = 1 ∧
    ¬ (calculate_slot_confidence 32400 30 [busyTenToTenThirty] <
        calculate_slot_confidence 32400 30 []) := by
  have hres : find_optimal_slots [busyTenToTenThirty] 30 32400 61200 5 =
      [TimeSlot.mk 37800 39600 (12/10), TimeSlot.mk 32400 34200 1] := by
    norm_num [find_optimal_slots, slotCandidates, walkSlots, trailingSlot,
      calculate_slot_confidence, proximityPenalty, evLE, confGE, max_def, busyTenToTenThirty]
  have hno : calculate_slot_confidence 32400 30 [] = 1 := by
    norm_num [calculate_slot_confidence, proximityPenalty, max_def]
  have hwith : calculate_slot_confidence 32400 30 [busyTenToTenThirty] = 1 := by
    norm_num [calculate_slot_confidence, proximityPenalty, max_def, busyTenToTenThirty]
  refine ⟨?_, hno, hwith, ?_⟩
  · rw [hres]; simp
  · rw [hno, hwith]; exact lt_irrefl 1

/-- C5 amended: the candidate slot 09:00-09:30 appears (ranked after the
10:30-11:00 slot, which scores 1.2 from the morning sweet spot), and its
confidence equals the no-event confidence of the identical slot: the
too-close-to-event penalty does not fire at a 30-minute distance. -/
theorem early_slot_appears_with_equal_confidence :
    find_optimal_slots [busyTenToTenThirty] 30 32400 61200 5 =
      [TimeSlot.mk 37800 39600 (12/10), TimeSlot.mk 32400 34200 1] ∧
    calculate_slot_confidence 32400 30 [busyTenToTenThirty] =
      calculate_slot_confidence 32400 30 [] := by
  constructor
  · norm_num [find_optimal_slots, slotCandidates, walkSlots, trailingSlot,
      calculate_slot_confidence, proximityPenalty, evLE, confGE, max_def, busyTenToTenThirty]
  · norm_num [calculate_slot_confidence, proximityPenalty, max_def, busyTenToTenThirty]

/-- C6 counterexample: with the reference on a Wednesday (day 2), `next Monday`
resolves to day 7 — the Monday 5 days ahead, which does have the requested
weekday but is not at least 7 days after the reference. -/
theorem next_weekday_from_wednesday_counterexample :
    parse_next_weekday 2 0 = 7 ∧ weekdayOf 7 = 0 ∧ ¬ ((7:Int) - 2 ≥ 7) := by decide

/-- C6 amended: `next W` returns the day with weekday `W` in the calendar week
after the reference: the offset is exactly `W - reference.weekday() + 7`,
always between 1 and 13 days — it is at least 7 only when `W` is at or after
the weekday of the reference. -/
theorem next_weekday_weekday_and_offset (today target : Int)
    (h0 : 0 ≤ target) (h7 : target < 7) :
    weekdayOf (parse_next_weekday today target) = target ∧
    parse_next_weekday today target - today = target - weekdayOf today + 7 ∧
    1 ≤ parse_next_weekday today target - today ∧
    parse_next_weekday today target - today ≤ 13 := by
  simp only [parse_next_weekday, weekdayOf]
  omega

/-- Witness for the amended C6: `next Friday` from a Wednesday. -/
theorem next_weekday_weekday_and_offset_witness :
    (0 ≤ (4:Int)) ∧ ((4:Int) < 7) ∧
    (weekdayOf (parse_next_weekday 2 4) = 4 ∧
     parse_next_weekday 2 4 - 2 = 4 - weekdayOf 2 + 7 ∧
     1 ≤ parse_next_weekday 2 4 - 2 ∧
     parse_next_weekday 2 4 - 2 ≤ 13) :=
  ⟨by decide, by decide, next_weekday_weekday_and_offset 2 4 (by decide) (by decide)⟩

/-- C7 counterexample: a text containing `next week` together with both
`early` and `late` resolves to reference + 10, not reference + 11: the source
uses `elif`, so only the `late` increment is applied. -/
theorem next_week_both_modifiers_counterexample :
    parse_complex_date_next_week "either early or late next week" 0 = some 10 ∧
    (10 : Int) ≠ 11 := by decide

/-- C7 amended: for a text containing `next week`, the `late` increment wins
whenever `late` is present (reference + 10, even when `early` is also
present); `early` alone gives reference + 8; neither gives reference + 7. -/
theorem next_week_modifier_precedence (text : String) (today : Int)
    (hnw : hasSub ("next week".data) (lowerStr text) = true) :
    (hasSub ("late".data) (lowerStr text) = true →
      parse_complex_date_next_week text today = some (today + 10)) ∧
    (hasSub ("late".data) (lowerStr text) = false →
      hasSub ("early".data) (lowerStr text) = true →
      parse_complex_date_next_week text today = some (today + 8)) ∧
    (hasSub ("late".data) (lowerStr text) = false →
      hasSub ("early".data) (lowerStr text) = false →
      parse_complex_date_next_week text today = some (today + 7)) := by
  refine ⟨fun hl => ?_, fun hl he => ?_, fun hl he => ?_⟩
  · simp only [parse_complex_date_next_week, hnw, hl]
    norm_num
  · simp only [parse_complex_date_next_week, hnw, hl, he]
    norm_num
  · simp only [parse_complex_date_next_week, hnw, hl, he]
    norm_num

/-- Witness for the amended C7 on a text containing both modifiers. -/
theorem next_week_modifier_precedence_witness :
    hasSub ("next week".data) (lowerStr "early and late next week") = true ∧
    hasSub ("late".data) (lowerStr "early and late next week") = true ∧
    parse_complex_date_next_week "early and late next week" 0 = some (0 + 10) :=
  ⟨by decide, by decide,
    (next_week_modifier_precedence "early and late next week" 0 (by decide)).1 (by decide)⟩

/-- C8 counterexample: from a Wednesday (day 2), `this Monday` resolves to
day 7, the following Monday — 5 days ahead, not the 6 the claim states. -/
theorem this_monday_from_wednesday_counterexample :
    weekdayOf 2 = 2 ∧ parse_this_weekday 2 0 = 7 ∧
    ¬ (parse_this_weekday 2 0 - 2 = 6) := by decide

/-- C8 amended: from any Wednesday, `this Monday` resolves to the following
Monday, exactly 5 days after the reference. -/
theorem this_monday_from_wednesday_five_days (today : Int) (h : weekdayOf today = 2) :
    parse_this_weekday today 0 - today = 5 ∧
    weekdayOf (parse_this_weekday today 0) = 0 := by
  simp only [parse_this_weekday, weekdayOf] at h ⊢
  split_ifs <;> omega

/-- Witness for the amended C8 at a concrete Wednesday. -/
theorem this_monday_from_wednesday_five_days_witness :
    weekdayOf 16 = 2 ∧
    (parse_this_weekday 16 0 - 16 = 5 ∧ weekdayOf (parse_this_weekday 16 0) = 0) :=
  ⟨by decide, this_monday_from_wednesday_five_days 16 (by decide)⟩

/-- On a successful update, the new preferred date is either the old one or a
successfully parsed extracted string, and a known date never becomes
unknown. -/
theorem parsePreferredDate_ok_cases (parseDate : String → Option Int)
    (newv : Option String) (old v : Option Int)
    (h : parsePreferredDate parseDate newv old = Except.ok v) :
    (v = old ∨ ∃ s d, newv = some s ∧ parseDate s = some d ∧ v = some d) ∧
    (old.isSome → v.isSome) := by
  cases newv with
  | none =>
    simp only [parsePreferredDate, Except.ok.injEq] at h
    subst h
    exact ⟨Or.inl rfl, fun hs => hs⟩
  | some s =>
    by_cases hs : s = ""
    · subst hs
      simp only [parsePreferredDate, if_true, Except.ok.injEq] at h
      subst h
      exact ⟨Or.inl rfl, fun hh => hh⟩
    · cases hpd : parseDate s with
      | none => simp [parsePreferredDate, hs, hpd] at h
      | some d =>
        simp only [parsePreferredDate, if_neg hs, hpd, Except.ok.injEq] at h
        subst h
        exact ⟨Or.inr ⟨s, d, rfl, hpd, rfl⟩, fun _ => rfl⟩

/-- C9: whenever `update_meeting_request` returns normally, every field that
was non-null stays non-null; `title` and `attendees` are untouched; and each
optional field is either kept unchanged or overwritten with a newer non-null
(truthy) extracted value. -/
theorem update_request_fields_never_reset (parseDate : String → Option Int)
    (req req' : MeetingRequest) (info : Option ExtractedInfo)
    (h : update_meeting_request parseDate req info = Except.ok req') :
    ((req.duration_minutes).isSome → (req'.duration_minutes).isSome) ∧
    ((req.preferred_date).isSome → (req'.preferred_date).isSome) ∧
    ((req.time_range).isSome → (req'.time_range).isSome) ∧
    req'.title = req.title ∧
    req'.attendees = req.attendees ∧
    (req'.duration_minutes = req.duration_minutes ∨
      ∃ d, d ≠ 0 ∧ (∃ i, info = some i ∧ i.duration_minutes = some d) ∧
        req'.duration_minutes = some d) ∧
    (req'.preferred_date = req.preferred_date ∨
      ∃ s d, (∃ i, info = some i ∧ i.preferred_date = some s) ∧ parseDate s = some d ∧
        req'.preferred_date = some d) ∧
    (req'.time_range = req.time_range ∨
      ∃ tr, (∃ i, info = some i ∧ i.time_range = some tr) ∧ req'.time_range = some tr) := by
  cases info with
  | none =>
    simp only [update_meeting_request, Except.ok.injEq] at h
    subst h
    exact ⟨fun x => x, fun x => x, fun x => x, rfl, rfl, Or.inl rfl, Or.inl rfl, Or.inl rfl⟩
  | some i =>
    simp only [update_meeting_request] at h
    cases hp : parsePreferredDate parseDate i.preferred_date req.preferred_date with
    | error e => rw [hp] at h; exact absurd h (by simp)
    | ok newDate =>
      rw [hp] at h
      simp only [Except.ok.injEq] at h
      subst h
      have hpd := parsePreferredDate_ok_cases parseDate i.preferred_date req.preferred_date
        newDate hp
      refine ⟨?_, ?_, ?_, rfl, rfl, ?_, ?_, ?_⟩
      · cases hd : i.duration_minutes with
        | none => simp [pyOrInt, hd]
        | some d =>
          by_cases hd0 : d = 0 <;> simp [pyOrInt, hd, hd0]
      · exact hpd.2
      · cases htr : i.time_range with
        | none => simp [pyOrPair, htr]
        | some tr => simp [pyOrPair, htr]
      · cases hd : i.duration_minutes with
        | none => exact Or.inl (by simp [pyOrInt, hd])
        | some d =>
          by_cases hd0 : d = 0
          · exact Or.inl (by simp [pyOrInt, hd, hd0])
          · exact Or.inr ⟨d, hd0, ⟨i, rfl, hd⟩, by simp [pyOrInt, hd, hd0]⟩
      · rcases hpd.1 with hold | ⟨s, d, hns, hps, hv⟩
        · exact Or.inl hold
        · exact Or.inr ⟨s, d, ⟨i, rfl, hns⟩, hps, hv⟩
      · cases htr : i.time_range with
        | none => exact Or.inl (by simp [pyOrPair, htr])
        | some tr => exact Or.inr ⟨tr, ⟨i, rfl, htr⟩, by simp [pyOrPair, htr]⟩

/-- Witness for C9 at a concrete request and extraction payload. -/
theorem update_request_fields_never_reset_witness :
    update_meeting_request parseDateStub sampleRequest (some sampleInfo) =
      Except.ok sampleUpdatedRequest ∧
    (((sampleRequest.duration_minutes).isSome → (sampleUpdatedRequest.duration_minutes).isSome) ∧
     ((sampleRequest.preferred_date).isSome → (sampleUpdatedRequest.preferred_date).isSome) ∧
     ((sampleRequest.time_range).isSome → (sampleUpdatedRequest.time_range).isSome) ∧
     sampleUpdatedRequest.title = sampleRequest.title ∧
     sampleUpdatedRequest.attendees = sampleRequest.attendees ∧
     (sampleUpdatedRequest.duration_minutes = sampleRequest.duration_minutes ∨
       ∃ d, d ≠ 0 ∧ (∃ i, some sampleInfo = some i ∧ i.duration_minutes = some d) ∧
         sampleUpdatedRequest.duration_minutes = some d) ∧
     (sampleUpdatedRequest.preferred_date = sampleRequest.preferred_date ∨
       ∃ s d, (∃ i, some sampleInfo = some i ∧ i.preferred_date = some s) ∧
         parseDateStub s = some d ∧ sampleUpdatedRequest.preferred_date = some d) ∧
     (sampleUpdatedRequest.time_range = sampleRequest.time_range ∨
       ∃ tr, (∃ i, some sampleInfo = some i ∧ i.time_range = some tr) ∧
         sampleUpdatedRequest.time_range = some tr)) :=
  ⟨rfl, update_request_fields_never_reset parseDateStub sampleRequest sampleUpdatedRequest
    (some sampleInfo) rfl⟩

/-- C10: yes/no detection in `CONFIRMING_SELECTION` is by raw substring with
`yes` taking precedence: any utterance whose lowercase form contains `yes`
enters the booking branch (whose attempt raises, see C3), and any utterance
containing `no` — also inside words like `know` or `not` — but not `yes`
returns the state to `SHOWING_OPTIONS`. -/
theorem confirmation_substring_dispatch (u : String) :
    (hasSub ("yes".data) (lowerStr u) = true →
      handle_confirmation u = ConfirmOutcome.raisedAttributeError ConversationState.scheduling) ∧
    (hasSub ("yes".data) (lowerStr u) = false →
      hasSub ("no".data) (lowerStr u) = true →
      handle_confirmation u = ConfirmOutcome.replied ConversationState.showing_options
        "No problem. Please select another available time slot.") := by
  constructor
  · intro hy
    simp [handle_confirmation, hy]
  · intro hy hn
    simp [handle_confirmation, hy, hn]

/-- Witness for C10 on the utterances `yes and no` and `I do not know`. -/
theorem confirmation_substring_dispatch_witness :
    hasSub ("yes".data) (lowerStr "yes and no") = true ∧
    handle_confirmation "yes and no" =
      ConfirmOutcome.raisedAttributeError ConversationState.scheduling ∧
    hasSub ("yes".data) (lowerStr "I do not know") = false ∧
    hasSub ("no".data) (lowerStr "I do not know") = true ∧
    handle_confirmation "I do not know" = ConfirmOutcome.replied
      ConversationState.showing_options "No problem. Please select another available time slot." :=
  ⟨by decide, (confirmation_substring_dispatch "yes and no").1 (by decide), by decide, by decide,
    (confirmation_substring_dispatch "I do not know").2 (by decide) (by decide)⟩
